import Mathlib

/-!
Shallow embedding of the terraform-provider-tinymon reconciliation core
(internal/provider/provider.go, check_resource.go, host_resource.go) and
proofs of the specification claims about it.

The HTTP transport is mocked: each operation is modelled as a pure function
of the declared state, the (possibly failing) JSON decoder, and the remote
response it would receive; the function returns the wire request it sends
and the state it writes (`none` = no state written, prior state retained).
-/

namespace TinyMon

/-- Framework tri-state string value (terraform-plugin-framework types.String). -/
inductive TFString where
  | null
  | unknown
  | value (s : String)
deriving DecidableEq, Repr

def TFString.isNull : TFString → Bool
  | .null => true
  | _ => false

def TFString.isUnknown : TFString → Bool
  | .unknown => true
  | _ => false

/-- types.String.ValueString(): the contained value, or "" for null/unknown. -/
def TFString.valueString : TFString → String
  | .value s => s
  | _ => ""

/-- Framework tri-state boolean value (types.Bool). -/
inductive TFBool where
  | null
  | unknown
  | value (b : Bool)
deriving DecidableEq, Repr

def TFBool.isNull : TFBool → Bool
  | .null => true
  | _ => false

/-- types.Bool.ValueBool(): the contained value, or false for null/unknown. -/
def TFBool.valueBool : TFBool → Bool
  | .value b => b
  | _ => false

/-- Framework tri-state 64-bit integer value (types.Int64). -/
inductive TFInt64 where
  | null
  | unknown
  | value (n : Int)
deriving DecidableEq, Repr

/-- types.Int64.ValueInt64(): the contained value, or 0 for null/unknown. -/
def TFInt64.valueInt64 : TFInt64 → Int
  | .value n => n
  | _ => 0

/-- TinyMonClient from provider.go (the http.Client field is part of the mocked transport). -/
structure TinyMonClient where
  url : String
  apiKey : String
deriving DecidableEq, Repr

/-- A mocked HTTP response: status code plus raw body, as DoJSON sees them. -/
structure HTTPResponse where
  statusCode : Nat
  body : String
deriving DecidableEq, Repr

/-- strings.TrimRight(s, "/"): remove all trailing '/' characters. -/
def trimRightSlashes (s : String) : String :=
  ⟨(s.data.reverse.dropWhile (fun c => c == '/')).reverse⟩

/-- The request URL built at the top of TinyMonClient.DoJSON:
strings.TrimRight(c.URL, "/") + path. -/
def requestURL (c : TinyMonClient) (path : String) : String :=
  trimRightSlashes c.url ++ path

/-- The wire request a DoJSON call sends: method, full URL, optional JSON body. -/
structure SentRequest (β : Type) where
  method : String
  url : String
  body : Option β
deriving DecidableEq, Repr

/-- TinyMonClient.DoJSON from provider.go, with the transport mocked by `resp`
and JSON unmarshalling mocked by `parse` (`none` models a nil `result`
argument). Returns the request sent together with the outcome: a non-2xx
status yields the formatted API error; otherwise the body is decoded into
the result only when a result destination was given and the body is
non-empty, and `dest` (the caller's untouched result object) is returned
unchanged otherwise. -/
def DoJSON {α β : Type} (c : TinyMonClient) (method path : String) (body : Option β)
    (parse : Option (String → Option α)) (dest : α) (resp : HTTPResponse) :
    SentRequest β × Except String α :=
  (⟨method, requestURL c path, body⟩,
    if resp.statusCode < 200 ∨ 300 ≤ resp.statusCode then
      .error ("API " ++ method ++ " " ++ path ++ " returned status "
        ++ toString resp.statusCode ++ ": " ++ resp.body)
    else
      match parse with
      | some p =>
        if 0 < resp.body.length then
          match p resp.body with
          | some v => .ok v
          | none => .error "unmarshalling response"
        else .ok dest
      | none => .ok dest)

/-- strings.SplitN helper: split off the part before the first occurrence of
`sep`, together with the remainder after it; `none` when `sep` is absent. -/
def splitOnFirst : List Char → Char → Option (List Char × List Char)
  | [], _ => none
  | c :: cs, sep =>
    if c = sep then some ([], cs)
    else
      match splitOnFirst cs sep with
      | some (a, b) => some (c :: a, b)
      | none => none

/-- strings.SplitN(s, sep, n) for a single-character separator: at most `n`
pieces, the last piece being the unsplit remainder. -/
def splitN (s : List Char) (sep : Char) : Nat → List (List Char)
  | 0 => []
  | 1 => [s]
  | n + 2 =>
    match splitOnFirst s sep with
    | none => [s]
    | some (a, b) => a :: splitN b sep (n + 1)

/-- One uppercase hexadecimal digit, as produced by net/url's percent-encoding. -/
def hexUpper (n : Nat) : Char :=
  if n < 10 then Char.ofNat (48 + n) else Char.ofNat (55 + n)

/-- Bytes net/url leaves unescaped in a query component: A-Z, a-z, 0-9, '-', '.', '_', '~'. -/
def isUnreservedByte (b : UInt8) : Bool :=
  let n := b.toNat
  (decide (48 ≤ n) && decide (n ≤ 57)) || (decide (65 ≤ n) && decide (n ≤ 90))
    || (decide (97 ≤ n) && decide (n ≤ 122))
    || n == 45 || n == 46 || n == 95 || n == 126

/-- url.QueryEscape: percent-encode every UTF-8 byte outside the unreserved
set, with space encoded as '+'. -/
def queryEscape (s : String) : String :=
  ⟨((s.toUTF8.toList.map fun b =>
      if isUnreservedByte b then [Char.ofNat b.toNat]
      else if b == 32 then ['+']
      else ['%', hexUpper (b.toNat / 16), hexUpper (b.toNat % 16)]).flatten)⟩

/-! ## Check resource (check_resource.go) -/

/-- checkResourceModel: the declared/canonical state of a tinymon_check. -/
structure checkResourceModel where
  id : TFInt64
  host_address : TFString
  type : TFString
  config : TFString
  interval_seconds : TFInt64
  enabled : TFBool
deriving DecidableEq, Repr

/-- checkAPIRequest: the JSON body of a check upsert. -/
structure checkAPIRequest where
  host_address : String
  type : String
  config : String
  interval_seconds : Int
  enabled : Int
deriving DecidableEq, Repr

/-- checkAPIResponse: the JSON body the check endpoints return. -/
structure checkAPIResponse where
  id : Int
  host_id : Int
  type : String
  config : String
  interval_seconds : Int
  enabled : Int
deriving DecidableEq, Repr

/-- checkDeleteRequest: the JSON body of a check delete. -/
structure checkDeleteRequest where
  host_address : String
  type : String
  config : String
deriving DecidableEq, Repr

/-- Go's `var result checkAPIResponse` zero value. -/
def checkAPIResponseZero : checkAPIResponse :=
  ⟨0, 0, "", "", 0, 0⟩

/-- mapCheckResponseToState: copy the API response into the state model.
Sets ID, Type, Config, IntervalSeconds and Enabled; the remaining field
(HostAddress) is left as it was. -/
def mapCheckResponseToState (apiResp : checkAPIResponse) (state : checkResourceModel) :
    checkResourceModel :=
  { state with
    id := .value apiResp.id
    type := .value apiResp.type
    config := .value apiResp.config
    interval_seconds := .value apiResp.interval_seconds
    enabled := .value (apiResp.enabled != 0) }

/-- checkResource.Create: encode enabled, build the upsert body, POST it, and
on success write the mapped response over the plan. -/
def checkResourceCreate (c : TinyMonClient) (plan : checkResourceModel)
    (parse : String → Option checkAPIResponse) (resp : HTTPResponse) :
    SentRequest checkAPIRequest × Option checkResourceModel :=
  let enabled : Int := if !plan.enabled.isNull && !plan.enabled.valueBool then 0 else 1
  let body : checkAPIRequest :=
    ⟨plan.host_address.valueString, plan.type.valueString, plan.config.valueString,
      plan.interval_seconds.valueInt64, enabled⟩
  let out := DoJSON c "POST" "/api/push/checks" (some body) (some parse) checkAPIResponseZero resp
  (out.1, match out.2 with
    | .error _ => none
    | .ok result => some (mapCheckResponseToState result plan))

/-- The composite-key query path built by checkResource.Read. -/
def checkQueryPath (state : checkResourceModel) : String :=
  "/api/push/checks?host_address=" ++ queryEscape state.host_address.valueString
    ++ "&type=" ++ queryEscape state.type.valueString
    ++ "&config=" ++ queryEscape state.config.valueString

/-- checkResource.Read: GET by composite natural key; on success overwrite the
stored state with the mapped response. -/
def checkResourceRead (c : TinyMonClient) (state : checkResourceModel)
    (parse : String → Option checkAPIResponse) (resp : HTTPResponse) :
    SentRequest Unit × Option checkResourceModel :=
  let out := DoJSON c "GET" (checkQueryPath state) none (some parse) checkAPIResponseZero resp
  (out.1, match out.2 with
    | .error _ => none
    | .ok result => some (mapCheckResponseToState result state))

/-- checkResource.Update: identical wire behaviour to Create (POST upsert). -/
def checkResourceUpdate (c : TinyMonClient) (plan : checkResourceModel)
    (parse : String → Option checkAPIResponse) (resp : HTTPResponse) :
    SentRequest checkAPIRequest × Option checkResourceModel :=
  let enabled : Int := if !plan.enabled.isNull && !plan.enabled.valueBool then 0 else 1
  let body : checkAPIRequest :=
    ⟨plan.host_address.valueString, plan.type.valueString, plan.config.valueString,
      plan.interval_seconds.valueInt64, enabled⟩
  let out := DoJSON c "POST" "/api/push/checks" (some body) (some parse) checkAPIResponseZero resp
  (out.1, match out.2 with
    | .error _ => none
    | .ok result => some (mapCheckResponseToState result plan))

/-- checkResource.Delete: DELETE keyed by the composite natural key; a nil
result destination is passed to DoJSON. `some ()` means the delete succeeded. -/
def checkResourceDelete (c : TinyMonClient) (state : checkResourceModel)
    (resp : HTTPResponse) : SentRequest checkDeleteRequest × Option Unit :=
  let body : checkDeleteRequest :=
    ⟨state.host_address.valueString, state.type.valueString, state.config.valueString⟩
  let out := DoJSON c "DELETE" "/api/push/checks" (some body)
    (none : Option (String → Option Unit)) () resp
  (out.1, match out.2 with
    | .error _ => none
    | .ok _ => some ())

/-- The attributes checkResource.ImportState writes on success. -/
structure checkImportAttrs where
  host_address : String
  type : String
  config : String
deriving DecidableEq, Repr

/-- checkResource.ImportState: strings.SplitN(id, "/", 3); fewer than 2 parts
is an invalid-import-ID error (no attributes set, modelled as `none`); the
config defaults to "\x7b\x7d" when the third part is absent. -/
def checkImportState (id : String) : Option checkImportAttrs :=
  match splitN id.data '/' 3 with
  | [a, b] => some ⟨⟨a⟩, ⟨b⟩, "\x7b\x7d"⟩
  | [a, b, c] => some ⟨⟨a⟩, ⟨b⟩, ⟨c⟩⟩
  | _ => none

/-! ## Host resource (host_resource.go) -/

/-- hostResourceModel: the declared/canonical state of a tinymon_host. -/
structure hostResourceModel where
  id : TFInt64
  address : TFString
  name : TFString
  description : TFString
  topic : TFString
  enabled : TFBool
deriving DecidableEq, Repr

/-- hostAPIRequest: the JSON body of a host upsert. -/
structure hostAPIRequest where
  address : String
  name : String
  description : String
  topic : String
  enabled : Int
deriving DecidableEq, Repr

/-- hostAPIResponse: the JSON body the host endpoints return. -/
structure hostAPIResponse where
  id : Int
  name : String
  address : String
  description : String
  topic : String
  enabled : Int
deriving DecidableEq, Repr

/-- hostDeleteRequest: the JSON body of a host delete. -/
structure hostDeleteRequest where
  address : String
deriving DecidableEq, Repr

/-- Go's `var result hostAPIResponse` zero value. -/
def hostAPIResponseZero : hostAPIResponse :=
  ⟨0, "", "", "", "", 0⟩

/-- mapHostResponseToState: copy the API response into the state model.
Sets every field of the model. -/
def mapHostResponseToState (apiResp : hostAPIResponse) (state : hostResourceModel) :
    hostResourceModel :=
  { state with
    id := .value apiResp.id
    address := .value apiResp.address
    name := .value apiResp.name
    description := .value apiResp.description
    topic := .value apiResp.topic
    enabled := .value (apiResp.enabled != 0) }

/-- hostResource.Create: encode enabled, build the upsert body, POST it, and
on success write the mapped response over the plan. -/
def hostResourceCreate (c : TinyMonClient) (plan : hostResourceModel)
    (parse : String → Option hostAPIResponse) (resp : HTTPResponse) :
    SentRequest hostAPIRequest × Option hostResourceModel :=
  let enabled : Int := if !plan.enabled.isNull && !plan.enabled.valueBool then 0 else 1
  let body : hostAPIRequest :=
    ⟨plan.address.valueString, plan.name.valueString, plan.description.valueString,
      plan.topic.valueString, enabled⟩
  let out := DoJSON c "POST" "/api/push/hosts" (some body) (some parse) hostAPIResponseZero resp
  (out.1, match out.2 with
    | .error _ => none
    | .ok result => some (mapHostResponseToState result plan))

/-- The by-address query path built by hostResource.Read. -/
def hostQueryPath (state : hostResourceModel) : String :=
  "/api/push/hosts?address=" ++ queryEscape state.address.valueString

/-- hostResource.Read: GET by address; on success overwrite the stored state
with the mapped response. -/
def hostResourceRead (c : TinyMonClient) (state : hostResourceModel)
    (parse : String → Option hostAPIResponse) (resp : HTTPResponse) :
    SentRequest Unit × Option hostResourceModel :=
  let out := DoJSON c "GET" (hostQueryPath state) none (some parse) hostAPIResponseZero resp
  (out.1, match out.2 with
    | .error _ => none
    | .ok result => some (mapHostResponseToState result state))

/-- hostResource.Update: identical wire behaviour to Create (POST upsert). -/
def hostResourceUpdate (c : TinyMonClient) (plan : hostResourceModel)
    (parse : String → Option hostAPIResponse) (resp : HTTPResponse) :
    SentRequest hostAPIRequest × Option hostResourceModel :=
  let enabled : Int := if !plan.enabled.isNull && !plan.enabled.valueBool then 0 else 1
  let body : hostAPIRequest :=
    ⟨plan.address.valueString, plan.name.valueString, plan.description.valueString,
      plan.topic.valueString, enabled⟩
  let out := DoJSON c "POST" "/api/push/hosts" (some body) (some parse) hostAPIResponseZero resp
  (out.1, match out.2 with
    | .error _ => none
    | .ok result => some (mapHostResponseToState result plan))

/-- hostResource.Delete: DELETE keyed by address; a nil result destination is
passed to DoJSON. `some ()` means the delete succeeded. -/
def hostResourceDelete (c : TinyMonClient) (state : hostResourceModel)
    (resp : HTTPResponse) : SentRequest hostDeleteRequest × Option Unit :=
  let body : hostDeleteRequest := ⟨state.address.valueString⟩
  let out := DoJSON c "DELETE" "/api/push/hosts" (some body)
    (none : Option (String → Option Unit)) () resp
  (out.1, match out.2 with
    | .error _ => none
    | .ok _ => some ())

/-- hostResource.ImportState: a single SetAttribute call writing the import
identifier verbatim into "address". Modelled as the list of (attribute path,
value) pairs written. -/
def hostImportState (id : String) : List (String × String) :=
  [("address", id)]

/-! ## Enabled wire encoding (the inline logic of the four Create/Update
handlers and of the two map functions) -/

/-- The enabled encoding computed in every Create/Update handler:
`enabled := 1; if !plan.Enabled.IsNull() && !plan.Enabled.ValueBool() { enabled = 0 }`. -/
def encodeEnabled (e : TFBool) : Int :=
  if !e.isNull && !e.valueBool then 0 else 1

/-- The enabled decoding used by both map functions: `apiResp.Enabled != 0`. -/
def decodeEnabled (w : Int) : Bool :=
  w != 0

/-! ## Schemas -/

/-- The fields of an attribute declaration the claims are about. -/
structure AttrSchema where
  name : String
  required : Bool
  optional : Bool
  computed : Bool
  requiresReplace : Bool
deriving DecidableEq, Repr

/-- checkResource.Schema: attribute names with their flags; requiresReplace
records a stringplanmodifier.RequiresReplace() plan modifier. -/
def checkSchemaAttrs : List AttrSchema :=
  [⟨"id", false, false, true, false⟩,
   ⟨"host_address", true, false, false, true⟩,
   ⟨"type", true, false, false, true⟩,
   ⟨"config", false, true, true, true⟩,
   ⟨"interval_seconds", false, true, true, false⟩,
   ⟨"enabled", false, true, true, false⟩]

/-- hostResource.Schema: attribute names with their flags. -/
def hostSchemaAttrs : List AttrSchema :=
  [⟨"id", false, false, true, false⟩,
   ⟨"address", true, false, false, true⟩,
   ⟨"name", false, true, true, false⟩,
   ⟨"description", false, true, true, false⟩,
   ⟨"topic", false, true, true, false⟩,
   ⟨"enabled", false, true, true, false⟩]

/-! ## Provider configuration (tinymonProvider.Configure) -/

/-- tinymonProviderModel: the provider configuration block. -/
structure tinymonProviderModel where
  url : TFString
  api_key : TFString
deriving DecidableEq, Repr

/-- tinymonProvider.Configure, with the process environment injected as a
lookup function (os.Getenv). Resolves url and api_key, collects a diagnostic
for each empty resolved value, and only when no diagnostic was added
constructs the client. -/
def tinymonConfigure (config : tinymonProviderModel) (env : String → String) :
    Except (List String) TinyMonClient :=
  let url := if !config.url.isNull && !config.url.isUnknown
    then config.url.valueString else env "TINYMON_URL"
  let urlErrs := if url = "" then ["Missing TinyMon URL"] else []
  let apiKey := if !config.api_key.isNull && !config.api_key.isUnknown
    then config.api_key.valueString else env "TINYMON_API_KEY"
  let errs := urlErrs ++ (if apiKey = "" then ["Missing TinyMon API Key"] else [])
  if errs.isEmpty then .ok ⟨url, apiKey⟩ else .error errs

/-- Spec-side configuration resolution, following the spec's words: the
resolved value is the explicitly configured value when it is set (non-null
and known), and otherwise the environment variable's value. -/
def resolveSpec (explicit : TFString) (envValue : String) : String :=
  match explicit with
  | .value s => s
  | _ => envValue

/-- The tail of Configure once both values are resolved: collect one
diagnostic per empty resolved value and construct the client only when no
diagnostic was added. -/
def configureResolved (url apiKey : String) : Except (List String) TinyMonClient :=
  let errs := (if url = "" then ["Missing TinyMon URL"] else [])
    ++ (if apiKey = "" then ["Missing TinyMon API Key"] else [])
  if errs.isEmpty then .ok ⟨url, apiKey⟩ else .error errs

/-! ## Helper lemmas -/

theorem splitOnFirst_of_not_mem (sep : Char) :
    ∀ s : List Char, sep ∉ s → splitOnFirst s sep = none := by
  intro s
  induction s with
  | nil => intro _; rfl
  | cons c cs ih =>
    intro h
    have hc : ¬ c = sep := by
      intro he
      exact h (by simp [he])
    simp [splitOnFirst, hc, ih (fun hm => h (List.mem_cons_of_mem _ hm))]

theorem splitOnFirst_append (sep : Char) :
    ∀ a rest : List Char, sep ∉ a →
      splitOnFirst (a ++ sep :: rest) sep = some (a, rest) := by
  intro a
  induction a with
  | nil => intro rest _; simp [splitOnFirst]
  | cons c a ih =>
    intro rest h
    have hc : ¬ c = sep := by
      intro he
      exact h (by simp [he])
    simp [splitOnFirst, hc, ih rest (fun hm => h (List.mem_cons_of_mem _ hm))]

/-! ## Claim theorems -/

/-- Claim C1: Check import parsing — the import identifier is split on at most
its first two slashes; with zero slashes the import fails and sets nothing;
with exactly two segments the state gets host_address, type and the literal
default config "\x7b\x7d"; with three segments the config is the entire
remainder after the second slash verbatim, embedded slashes included. -/
theorem C1_check_import_parsing :
    (∀ id : String, '/' ∉ id.data → checkImportState id = none)
    ∧ (∀ a b : List Char, '/' ∉ a → '/' ∉ b →
        checkImportState ⟨a ++ '/' :: b⟩ = some ⟨⟨a⟩, ⟨b⟩, "\x7b\x7d"⟩)
    ∧ (∀ a b c : List Char, '/' ∉ a → '/' ∉ b →
        checkImportState ⟨a ++ '/' :: b ++ '/' :: c⟩ = some ⟨⟨a⟩, ⟨b⟩, ⟨c⟩⟩) := by
  refine ⟨?_, ?_, ?_⟩
  · intro id h
    simp [checkImportState, splitN, splitOnFirst_of_not_mem '/' id.data h]
  · intro a b ha hb
    simp [checkImportState, splitN, splitOnFirst_append '/' a b ha,
      splitOnFirst_of_not_mem '/' b hb]
  · intro a b c ha hb
    simp [checkImportState, splitN, splitOnFirst_append '/' a (b ++ '/' :: c) ha,
      splitOnFirst_append '/' b c hb]

/-- Witness for C1 at the spec's own example: a three-segment import whose
config segment contains an embedded slash. -/
theorem C1_check_import_parsing_witness :
    checkImportState ⟨"192.168.1.10".data ++ '/' :: "disk".data
        ++ '/' :: "\x7b\"mount\":\"/\"\x7d".data⟩ =
      some ⟨"192.168.1.10", "disk", "\x7b\"mount\":\"/\"\x7d"⟩ :=
  C1_check_import_parsing.2.2 "192.168.1.10".data "disk".data
    "\x7b\"mount\":\"/\"\x7d".data (by decide) (by decide)

/-- Claim C2: for every API call, a response status outside [200, 300) makes
DoJSON return an error whose message carries the original status code and the
raw response body, and every one of the eight resource handlers then returns
without writing new state (the previously stored canonical state is kept). -/
theorem C2_non2xx_error_no_state_write (status : Nat) (bodyStr : String)
    (h : status < 200 ∨ 300 ≤ status) :
    (∀ (α β : Type) (c : TinyMonClient) (method path : String) (body : Option β)
        (parse : Option (String → Option α)) (dest : α),
      (DoJSON c method path body parse dest ⟨status, bodyStr⟩).2 =
        .error ("API " ++ method ++ " " ++ path ++ " returned status "
          ++ toString status ++ ": " ++ bodyStr))
    ∧ (∀ c plan parse, (checkResourceCreate c plan parse ⟨status, bodyStr⟩).2 = none)
    ∧ (∀ c state parse, (checkResourceRead c state parse ⟨status, bodyStr⟩).2 = none)
    ∧ (∀ c plan parse, (checkResourceUpdate c plan parse ⟨status, bodyStr⟩).2 = none)
    ∧ (∀ c state, (checkResourceDelete c state ⟨status, bodyStr⟩).2 = none)
    ∧ (∀ c plan parse, (hostResourceCreate c plan parse ⟨status, bodyStr⟩).2 = none)
    ∧ (∀ c state parse, (hostResourceRead c state parse ⟨status, bodyStr⟩).2 = none)
    ∧ (∀ c plan parse, (hostResourceUpdate c plan parse ⟨status, bodyStr⟩).2 = none)
    ∧ (∀ c state, (hostResourceDelete c state ⟨status, bodyStr⟩).2 = none) := by
  have hD : ∀ (α β : Type) (c : TinyMonClient) (method path : String) (body : Option β)
      (parse : Option (String → Option α)) (dest : α),
      (DoJSON c method path body parse dest ⟨status, bodyStr⟩).2 =
        .error ("API " ++ method ++ " " ++ path ++ " returned status "
          ++ toString status ++ ": " ++ bodyStr) := by
    intro α β c method path body parse dest
    simp [DoJSON, h]
  refine ⟨hD, ?_, ?_, ?_, ?_, ?_, ?_, ?_, ?_⟩
  · intro c plan parse
    simp [checkResourceCreate, hD]
  · intro c state parse
    simp [checkResourceRead, hD]
  · intro c plan parse
    simp [checkResourceUpdate, hD]
  · intro c state
    simp [checkResourceDelete, hD]
  · intro c plan parse
    simp [hostResourceCreate, hD]
  · intro c state parse
    simp [hostResourceRead, hD]
  · intro c plan parse
    simp [hostResourceUpdate, hD]
  · intro c state
    simp [hostResourceDelete, hD]

/-- Witness for C2: a 404 on a check read writes no state. -/
theorem C2_non2xx_witness :
    (checkResourceRead ⟨"https://mon.example.com", "key"⟩
      ⟨.null, .value "h1", .value "ping", .value "\x7b\x7d", .value 300, .value true⟩
      (fun _ => none) ⟨404, "not found"⟩).2 = none :=
  (C2_non2xx_error_no_state_write 404 "not found" (by decide)).2.2.1
    ⟨"https://mon.example.com", "key"⟩
    ⟨.null, .value "h1", .value "ping", .value "\x7b\x7d", .value 300, .value true⟩
    (fun _ => none)

/-- Claim C10: on a 2xx response, an empty body or a nil result destination
makes DoJSON succeed without attempting JSON decoding, returning the caller's
result object unmodified (both delete handlers, which pass a nil destination,
succeed); any error DoJSON returns on a 2xx response requires a non-empty
body and a supplied result destination. -/
theorem C10_empty_body_nil_dest (status : Nat) (h2 : 200 ≤ status ∧ status < 300) :
    (∀ (α β : Type) (c : TinyMonClient) (method path : String) (body : Option β)
        (parse : String → Option α) (dest : α),
      (DoJSON c method path body (some parse) dest ⟨status, ""⟩).2 = .ok dest)
    ∧ (∀ (α β : Type) (c : TinyMonClient) (method path : String) (body : Option β)
        (dest : α) (bodyStr : String),
      (DoJSON c method path body (none : Option (String → Option α)) dest
        ⟨status, bodyStr⟩).2 = .ok dest)
    ∧ (∀ (α β : Type) (c : TinyMonClient) (method path : String) (body : Option β)
        (parse : Option (String → Option α)) (dest : α) (bodyStr e : String),
      (DoJSON c method path body parse dest ⟨status, bodyStr⟩).2 = .error e →
        bodyStr ≠ "" ∧ parse ≠ none)
    ∧ (∀ c state bodyStr, (checkResourceDelete c state ⟨status, bodyStr⟩).2 = some ())
    ∧ (∀ c state bodyStr, (hostResourceDelete c state ⟨status, bodyStr⟩).2 = some ()) := by
  have hn : ¬(status < 200 ∨ 300 ≤ status) := by omega
  refine ⟨?_, ?_, ?_, ?_, ?_⟩
  · intro α β c method path body parse dest
    simp [DoJSON, hn]
  · intro α β c method path body dest bodyStr
    simp [DoJSON, hn]
  · intro α β c method path body parse dest bodyStr e hErr
    cases parse with
    | none => simp [DoJSON, hn] at hErr
    | some p =>
      by_cases hb : bodyStr = ""
      · subst hb
        simp [DoJSON, hn] at hErr
      · exact ⟨hb, by simp⟩
  · intro c state bodyStr
    simp [checkResourceDelete, DoJSON, hn]
  · intro c state bodyStr
    simp [hostResourceDelete, DoJSON, hn]

/-- Witness for C10: a 204 with an empty body on a host delete (nil result
destination) succeeds. -/
theorem C10_empty_body_witness :
    (hostResourceDelete ⟨"https://mon.example.com", "key"⟩
      ⟨.null, .value "h1", .value "h1", .value "", .value "", .value true⟩
      ⟨204, ""⟩).2 = some () :=
  (C10_empty_body_nil_dest 204 (by decide)).2.2.2.2
    ⟨"https://mon.example.com", "key"⟩
    ⟨.null, .value "h1", .value "h1", .value "", .value "", .value true⟩ ""

/-- Claim C3: enabled encoding/decoding — false encodes to wire 0, null or
true to wire 1; wire 0 decodes to false and any non-zero wire value to true;
the two directions compose to round-trips; and these are exactly the encode
used by the Create handlers and the decode used by the response mapping. -/
theorem C3_enabled_roundtrip :
    encodeEnabled .null = 1
    ∧ encodeEnabled (.value true) = 1
    ∧ encodeEnabled (.value false) = 0
    ∧ decodeEnabled 0 = false
    ∧ (∀ w : Int, w ≠ 0 → decodeEnabled w = true)
    ∧ (∀ b : Bool, decodeEnabled (encodeEnabled (.value b)) = b)
    ∧ (∀ w : Int, w = 0 ∨ w = 1 → encodeEnabled (.value (decodeEnabled w)) = w)
    ∧ (∀ c plan parse resp, (checkResourceCreate c plan parse resp).1.body =
        some ⟨plan.host_address.valueString, plan.type.valueString,
          plan.config.valueString, plan.interval_seconds.valueInt64,
          encodeEnabled plan.enabled⟩)
    ∧ (∀ r s, (mapCheckResponseToState r s).enabled = .value (decodeEnabled r.enabled)) := by
  refine ⟨rfl, rfl, rfl, rfl, ?_, ?_, ?_, ?_, ?_⟩
  · intro w hw
    simp [decodeEnabled, hw]
  · intro b
    cases b <;> rfl
  · intro w hw
    rcases hw with rfl | rfl <;> rfl
  · intro c plan parse resp
    rfl
  · intro r s
    rfl

/-- Witness for C3: a non-zero wire value (5) decodes to true, and the 0/1
wire values survive decode-then-encode. -/
theorem C3_enabled_roundtrip_witness :
    decodeEnabled 5 = true ∧ encodeEnabled (.value (decodeEnabled 1)) = 1 :=
  ⟨C3_enabled_roundtrip.2.2.2.2.1 5 (by decide),
    C3_enabled_roundtrip.2.2.2.2.2.2.1 1 (Or.inr rfl)⟩

/-- Claim C4: for every plan, Create and Update build the same wire request —
the same POST method, the same upsert path, and the same body as a function
of the plan — for both checks and hosts; indeed the whole handler outcomes
coincide. -/
theorem C4_create_update_same_upsert :
    (∀ c plan parse resp,
      checkResourceCreate c plan parse resp = checkResourceUpdate c plan parse resp)
    ∧ (∀ c plan parse resp,
      hostResourceCreate c plan parse resp = hostResourceUpdate c plan parse resp)
    ∧ (∀ c plan parse resp,
      (checkResourceCreate c plan parse resp).1.method = "POST"
      ∧ (checkResourceCreate c plan parse resp).1.url = requestURL c "/api/push/checks")
    ∧ (∀ c plan parse resp,
      (hostResourceCreate c plan parse resp).1.method = "POST"
      ∧ (hostResourceCreate c plan parse resp).1.url = requestURL c "/api/push/hosts") := by
  refine ⟨?_, ?_, ?_, ?_⟩
  · intro c plan parse resp
    rfl
  · intro c plan parse resp
    rfl
  · intro c plan parse resp
    exact ⟨rfl, rfl⟩
  · intro c plan parse resp
    exact ⟨rfl, rfl⟩

/-- Counterexample to claim C5 as stated: after mapping a check response into
state, host_address still depends on the previously stored local value (the
check API response does not even carry a host_address field), so it is not
overwritten with a value from the remote response. -/
theorem C5_counterexample_host_address_kept :
    (mapCheckResponseToState ⟨7, 3, "ping", "\x7b\x7d", 60, 1⟩
      ⟨.null, .value "a.example", .value "ping", .value "\x7b\x7d", .value 60, .value true⟩).host_address
    ≠ (mapCheckResponseToState ⟨7, 3, "ping", "\x7b\x7d", 60, 1⟩
      ⟨.null, .value "b.example", .value "ping", .value "\x7b\x7d", .value 60, .value true⟩).host_address := by
  decide

/-- Claim C5 (amended): on a successful fetch every host attribute (id,
address, name, description, topic, enabled) is overwritten with the remote
response's value; for a check every attribute except host_address (id, type,
config, interval_seconds, enabled) is overwritten with the remote response's
value, while host_address keeps its previously stored local value. -/
theorem C5_refresh_overwrites_attributes :
    (∀ r s, mapHostResponseToState r s =
      ⟨.value r.id, .value r.address, .value r.name, .value r.description,
        .value r.topic, .value (r.enabled != 0)⟩)
    ∧ (∀ r s, mapCheckResponseToState r s =
      ⟨.value r.id, s.host_address, .value r.type, .value r.config,
        .value r.interval_seconds, .value (r.enabled != 0)⟩) :=
  ⟨fun _ _ => rfl, fun _ _ => rfl⟩

/-- Claim C6: for base URL and API key alike, the resolved value is the
explicitly configured one when set (non-null and known) and otherwise the
environment variable's value; configuration fails — before any client is
constructed — exactly when at least one resolved value is empty, and a
constructed client carries the two resolved values. -/
theorem C6_configuration_resolution :
    ∀ (config : tinymonProviderModel) (env : String → String),
      ((∃ es, tinymonConfigure config env = .error es) ↔
        (resolveSpec config.url (env "TINYMON_URL") = ""
          ∨ resolveSpec config.api_key (env "TINYMON_API_KEY") = ""))
      ∧ (∀ client, tinymonConfigure config env = .ok client →
          client.url = resolveSpec config.url (env "TINYMON_URL")
          ∧ client.apiKey = resolveSpec config.api_key (env "TINYMON_API_KEY")) := by
  intro config env
  have heq : tinymonConfigure config env
      = configureResolved (resolveSpec config.url (env "TINYMON_URL"))
          (resolveSpec config.api_key (env "TINYMON_API_KEY")) := by
    obtain ⟨cu, ck⟩ := config
    cases cu <;> cases ck <;> rfl
  rw [heq]
  set u := resolveSpec config.url (env "TINYMON_URL") with hu
  set k := resolveSpec config.api_key (env "TINYMON_API_KEY") with hk
  by_cases h1 : u = "" <;> by_cases h2 : k = ""
  · have he : configureResolved u k = .error (["Missing TinyMon URL"]
        ++ ["Missing TinyMon API Key"]) := by
      simp [configureResolved, h1, h2]
    refine ⟨?_, ?_⟩
    · rw [he]
      simp [h1]
    · intro client hc
      rw [he] at hc
      exact absurd hc (by simp)
  · have he : configureResolved u k = .error ["Missing TinyMon URL"] := by
      simp [configureResolved, h1, h2]
    refine ⟨?_, ?_⟩
    · rw [he]
      simp [h1]
    · intro client hc
      rw [he] at hc
      exact absurd hc (by simp)
  · have he : configureResolved u k = .error ["Missing TinyMon API Key"] := by
      simp [configureResolved, h1, h2]
    refine ⟨?_, ?_⟩
    · rw [he]
      simp [h2]
    · intro client hc
      rw [he] at hc
      exact absurd hc (by simp)
  · have he : configureResolved u k = .ok ⟨u, k⟩ := by
      simp [configureResolved, h1, h2]
    refine ⟨?_, ?_⟩
    · rw [he]
      simp [h1, h2]
    · intro client hc
      rw [he] at hc
      injection hc with h3
      rw [← h3]
      exact ⟨rfl, rfl⟩

/-- Witness for C6: an explicit URL beats a non-empty environment value, and a
null api_key falls back to the environment. -/
theorem C6_configuration_resolution_witness :
    (⟨"https://x", "sekrit"⟩ : TinyMonClient).url = resolveSpec (.value "https://x") "sekrit"
    ∧ (⟨"https://x", "sekrit"⟩ : TinyMonClient).apiKey = resolveSpec .null "sekrit" :=
  (C6_configuration_resolution ⟨.value "https://x", .null⟩ (fun _ => "sekrit")).2
    ⟨"https://x", "sekrit"⟩ rfl

/-- Claim C7: the schemas partition attributes into identity and mutable ones:
exactly a host's address and a check's host_address, type and config carry a
RequiresReplace plan modifier; every other declared attribute does not. -/
theorem C7_schema_identity_partition :
    (hostSchemaAttrs.all fun a => a.requiresReplace == (a.name == "address")) = true
    ∧ (checkSchemaAttrs.all fun a => a.requiresReplace
        == (a.name == "host_address" || a.name == "type" || a.name == "config")) = true := by
  decide

/-- Claim C8: host import writes the external identifier verbatim into the
address attribute and writes no other attribute. -/
theorem C8_host_import_verbatim :
    ∀ id : String, hostImportState id = [("address", id)] :=
  fun _ => rfl

theorem dropWhile_replicate_append (n : Nat) (l : List Char) :
    (List.replicate n '/' ++ l).dropWhile (fun c => c == '/')
      = l.dropWhile (fun c => c == '/') := by
  induction n with
  | zero => rfl
  | succ n ih => simp [List.replicate_succ, List.dropWhile_cons, ih]

theorem trimRightSlashes_append_replicate (u : String) (n : Nat) :
    trimRightSlashes (u ++ ⟨List.replicate n '/'⟩) = trimRightSlashes u := by
  show (⟨((u.data ++ List.replicate n '/').reverse.dropWhile (fun c => c == '/')).reverse⟩ : String)
      = trimRightSlashes u
  rw [List.reverse_append, List.reverse_replicate, dropWhile_replicate_append]
  rfl

/-- Claim C9: every DoJSON call is issued against the base URL with all
trailing '/' characters removed, concatenated with the path; hence base URLs
differing only in trailing slashes produce identical request URLs. -/
theorem C9_trailing_slash_insensitive :
    (∀ (α β : Type) (c : TinyMonClient) (method path : String) (body : Option β)
        (parse : Option (String → Option α)) (dest : α) (resp : HTTPResponse),
      (DoJSON c method path body parse dest resp).1.url = trimRightSlashes c.url ++ path)
    ∧ (∀ (u k path : String) (n : Nat),
        requestURL ⟨u ++ ⟨List.replicate n '/'⟩, k⟩ path = requestURL ⟨u, k⟩ path) := by
  refine ⟨fun α β c method path body parse dest resp => rfl, ?_⟩
  intro u k path n
  simp [requestURL, trimRightSlashes_append_replicate]

end TinyMon
